import Mathlib

/-!
# Shallow embedding of the `recipe_finder` backend

This file embeds the data-access layer (`backend/crud.py`), the relevant
route handlers (`backend/main.py`) and the input schemas
(`backend/schemas.py`) of the recipe-catalog service, and proves the
behavioural properties of its specification.

Modelling decisions:

* The SQLite database is a `DB` record holding each table as a list in
  primary-key (insertion) order, plus the autoincrement counters.
* The `recipe_ingredient` join table is stored per recipe as the list
  `Recipe.ingredientIds` of join rows in insertion order; the ORM
  deduplicates entities by identity when a collection is loaded, so the
  observable `recipe.ingredients` collection is `loadedIngredientIds`
  (first-occurrence dedup of the join rows).
* `auth.py` is not part of the sources; its functions
  (`decode_access_token`, `get_password_hash`, `verify_password`,
  `create_access_token`) are modelled from the spec, see below.
* Route handlers return `Except HTTPException _`; raising an
  `HTTPException` in Python is the `.error` case.
-/

namespace RecipeFinder

/-! ### Python string primitives

`str.strip`, `str.lower`, `str.partition(' ')` and `str.split(',')` are
modelled structurally on the character list of the string (ASCII
whitespace and case, which covers every value the service normalizes). -/

/-- The ASCII whitespace characters `str.strip` removes. -/
def isSpaceChar (c : Char) : Bool :=
  c = ' ' || c = '\t' || c = '\n' || c = '\r' || c = '\x0b' || c = '\x0c'

/-- Drop leading and trailing whitespace. -/
def trimChars (cs : List Char) : List Char :=
  (cs.dropWhile isSpaceChar).rdropWhile isSpaceChar

/-- Python's `s.strip()`. -/
def pyStrip (s : String) : String := ⟨trimChars s.data⟩

/-- Python's `s.lower()` (ASCII case, via `Char.toLower`). -/
def pyLower (s : String) : String := ⟨s.data.map Char.toLower⟩

/-- Python's truthiness test `if s.strip():` — true iff something remains
after trimming. -/
def stripTruthy (s : String) : Bool := !(trimChars s.data).isEmpty

/-- Python's `s.strip().lower()`, the ingredient-name normalization. -/
def normalizeName (s : String) : String := pyLower (pyStrip s)

/-- Row of the `ingredients` table (`models.Ingredient`). -/
structure Ingredient where
  id : Nat
  name : String
deriving Repr, DecidableEq

/-- Row of the `users` table (`models.User`). -/
structure User where
  id : Nat
  username : String
  hashed_password : String
deriving Repr, DecidableEq

/-- Row of the `recipes` table (`models.Recipe`), together with its rows of
the `recipe_ingredient` join table (`ingredientIds`, in insertion order). -/
structure Recipe where
  id : Nat
  title : String
  description : Option String
  image_url : Option String
  owner_id : Option Nat
  ingredientIds : List Nat
deriving Repr, DecidableEq

/-- The relational store: three tables in primary-key order plus the
autoincrement counters (SQLite assigns ids 1, 2, ...). -/
structure DB where
  users : List User
  recipes : List Recipe
  ingredients : List Ingredient
  nextUserId : Nat
  nextRecipeId : Nat
  nextIngredientId : Nat
deriving Repr, DecidableEq

/-- The empty database right after `Base.metadata.create_all`. -/
def DB.empty : DB := ⟨[], [], [], 1, 1, 1⟩

/-- Keep each element's first occurrence, skipping those already `seen`. -/
def dedupFirstAux (seen : List Nat) : List Nat → List Nat
  | [] => []
  | a :: l =>
    if a ∈ seen then dedupFirstAux seen l
    else a :: dedupFirstAux (a :: seen) l

/-- First-occurrence deduplication: when the ORM loads a list-valued
relationship it uniquifies the returned entities by identity, so duplicate
join rows collapse to one element, keeping first-seen order. -/
def dedupFirst (l : List Nat) : List Nat := dedupFirstAux [] l

/-- The observable `recipe.ingredients` collection: the join rows of the
recipe as deduplicated by the ORM's entity uniquing on load. -/
def loadedIngredientIds (r : Recipe) : List Nat := dedupFirst r.ingredientIds

/-- The names of the recipe's loaded ingredients, via the join to the
`ingredients` table. -/
def loadedIngredientNames (db : DB) (r : Recipe) : List String :=
  (loadedIngredientIds r).filterMap
    (fun iid => (db.ingredients.find? (fun i => i.id = iid)).map (fun i => i.name))

/-! ## `backend/crud.py` -/

/-- `crud.get_user_by_username`: exact, case-sensitive first match. -/
def get_user_by_username (db : DB) (username : String) : Option User :=
  db.users.find? (fun u => u.username = username)

/-- `crud.create_user`: insert a user row (signup pre-checks uniqueness). -/
def create_user (db : DB) (username : String) (hashed_password : String) :
    DB × User :=
  let u : User := ⟨db.nextUserId, username, hashed_password⟩
  ({ db with users := db.users ++ [u], nextUserId := db.nextUserId + 1 }, u)

/-- `crud.create_or_get_ingredient`: normalize the name, return the first
row with that name, inserting a fresh row when none exists. -/
def create_or_get_ingredient (db : DB) (name : String) : DB × Ingredient :=
  let n := normalizeName name
  match db.ingredients.find? (fun i => i.name = n) with
  | some i => (db, i)
  | none =>
    let i : Ingredient := ⟨db.nextIngredientId, n⟩
    ({ db with ingredients := db.ingredients ++ [i],
               nextIngredientId := db.nextIngredientId + 1 }, i)

/-- The loop body of `crud.create_recipe` / `crud.update_recipe`:
resolve one name via create-or-get and append the join row. -/
def resolveAndAppend (st : DB × Recipe) (name : String) : DB × Recipe :=
  ((create_or_get_ingredient st.1 name).1,
   { st.2 with
      ingredientIds := st.2.ingredientIds ++ [(create_or_get_ingredient st.1 name).2.id] })

/-- Write the (mutated) ORM recipe object back to its row, as the final
`db.commit()` does. -/
def commitRecipe (db : DB) (r : Recipe) : DB :=
  { db with recipes := db.recipes.map (fun x => if x.id = r.id then r else x) }

/-- `crud.create_recipe`: insert the recipe row, then resolve each
ingredient name via create-or-get and attach it. -/
def create_recipe (db : DB) (title : String) (description : Option String)
    (image_url : Option String) (ingredient_names : List String)
    (owner_id : Option Nat) : DB × Recipe :=
  let r : Recipe := ⟨db.nextRecipeId, title, description, image_url, owner_id, []⟩
  let db1 := { db with recipes := db.recipes ++ [r], nextRecipeId := db.nextRecipeId + 1 }
  let st := ingredient_names.foldl resolveAndAppend (db1, r)
  (commitRecipe st.1 st.2, st.2)

/-- `crud.get_recipe`: first row with the given id. -/
def get_recipe (db : DB) (recipe_id : Nat) : Option Recipe :=
  db.recipes.find? (fun r => r.id = recipe_id)

/-- `crud.list_recipes`: a plain table scan (primary-key order in SQLite)
with `offset(skip).limit(limit)`. -/
def list_recipes (db : DB) (skip : Nat := 0) (limit : Nat := 100) : List Recipe :=
  (db.recipes.drop skip).take limit

/-- The AND-of-filters condition of `crud.search_recipes_by_ingredients`:
`Recipe.ingredients.any(Ingredient.name == name)`, an EXISTS over the join
rows. -/
def recipeHasIngredientNamed (db : DB) (r : Recipe) (name : String) : Bool :=
  r.ingredientIds.any
    (fun iid => db.ingredients.any (fun i => i.id = iid && i.name = name))

/-- The list comprehension `[n.strip().lower() for n in ingredient_list
if n.strip()]` of `crud.search_recipes_by_ingredients`. -/
def normalizedQuery (ingredient_list : List String) : List String :=
  (ingredient_list.filter stripTruthy).map normalizeName

/-- `crud.search_recipes_by_ingredients`: normalize and drop blank names;
empty query returns no rows; otherwise keep recipes containing every
named ingredient. -/
def search_recipes_by_ingredients (db : DB) (ingredient_list : List String) :
    List Recipe :=
  let names := normalizedQuery ingredient_list
  if names.isEmpty then []
  else db.recipes.filter (fun r => names.all (fun n => recipeHasIngredientNamed db r n))

/-- `crud.update_recipe`: each `None` parameter leaves its field alone; a
provided ingredient list first clears the association list, then resolves
and attaches each name. -/
def update_recipe (db : DB) (recipe : Recipe) (title : Option String)
    (description : Option String) (image_url : Option String)
    (ingredient_names : Option (List String)) : DB × Recipe :=
  let r := match title with
    | some t => { recipe with title := t }
    | none => recipe
  let r := match description with
    | some d => { r with description := some d }
    | none => r
  let r := match image_url with
    | some u => { r with image_url := some u }
    | none => r
  let st := match ingredient_names with
    | some names => names.foldl resolveAndAppend (db, { r with ingredientIds := [] })
    | none => (db, r)
  (commitRecipe st.1 st.2, st.2)

/-- `crud.delete_recipe`: remove the recipe row (and with it its join
rows); ingredient rows are untouched. -/
def delete_recipe (db : DB) (recipe : Recipe) : DB :=
  { db with recipes := db.recipes.filter (fun x => x.id ≠ recipe.id) }

/-! ## `backend/schemas.py` -/

/-- Raw JSON body of `POST /recipes` and `PUT /recipes/{id}` before
pydantic validation: every field may be absent. -/
structure RecipeBody where
  title : Option String
  description : Option String
  image_url : Option String
  ingredients : Option (List String)
deriving Repr, DecidableEq

/-- `schemas.RecipeCreate` after validation: `title` is required and
trimmed, `description`/`image_url` default to `None`, and `ingredients`
defaults to the empty list. -/
structure RecipeCreate where
  title : String
  description : Option String
  image_url : Option String
  ingredients : List String
deriving Repr, DecidableEq

/-- Pydantic parsing of `schemas.RecipeCreate`: a missing or blank title
is a validation failure (422 before the handler runs); an absent
`ingredients` field takes the schema default `[]`. -/
def parseRecipeCreate (b : RecipeBody) : Option RecipeCreate :=
  match b.title with
  | none => none
  | some t =>
    if !stripTruthy t then none
    else some ⟨pyStrip t, b.description, b.image_url, b.ingredients.getD []⟩

/-- `schemas.UserCreate` after validation (both fields trimmed, non-blank). -/
structure UserCreate where
  username : String
  password : String
deriving Repr, DecidableEq

/-- `schemas.Token`. -/
structure Token where
  access_token : String
  token_type : String
deriving Repr, DecidableEq

/-! ## Credential module (modelled: `backend/auth.py` is not in the sources) -/

/-- The claims mapping carried by a token; the handlers only read the
optional `sub` claim (`payload.get('sub')`). -/
structure TokenPayload where
  sub : Option String
deriving Repr, DecidableEq

/-- Modelled from the spec: the state `auth.decode_access_token` closes
over — which token strings currently carry a valid signature and an
unexpired expiry, and which claims they embed. `auth.py` is missing from
the sources; per the spec, decoding "verifies signature and expiry;
returns the embedded claims on success" and yields a no-value result for
"malformed structure, bad signature, wrong algorithm, expired token, or
absent/empty input", so every token outside this table decodes to none. -/
structure TokenEnv where
  validTokens : List (String × TokenPayload)
deriving Repr, DecidableEq

/-- Modelled from the spec: `auth.decode_access_token` — the claims of a
currently-valid token, `none` on every failure (never raises). -/
def decode_access_token (env : TokenEnv) (token : String) : Option TokenPayload :=
  (env.validTokens.find? (fun p => p.1 = token)).map (fun p => p.2)

/-! ## `backend/main.py` -/

/-- A `fastapi.HTTPException` raised by a handler. -/
structure HTTPException where
  status_code : Nat
  detail : String
deriving Repr, DecidableEq

/-- The character-level split at the first space underlying
`s.partition(' ')`. -/
def breakOnSpace : List Char → List Char × List Char
  | [] => ([], [])
  | c :: cs =>
    if c = ' ' then ([], cs)
    else
      let p := breakOnSpace cs
      (c :: p.1, p.2)

/-- Python's `s.partition(' ')`, keeping only the parts before and after
the first space (the separator itself is discarded by the handler). -/
def partitionSpace (s : String) : String × String :=
  ((⟨(breakOnSpace s.data).1⟩ : String), (⟨(breakOnSpace s.data).2⟩ : String))

/-- `main.get_current_user`: parse the optional `Authorization` header as
a bearer token; any failure (missing header, non-bearer scheme, failed
decode, missing `sub` claim, unknown user) yields `none`, never an
error. -/
def get_current_user (env : TokenEnv) (db : DB) (authorization : Option String) :
    Option User :=
  match authorization with
  | none => none
  | some a =>
    let st := partitionSpace a
    if pyLower st.1 ≠ "bearer" then none
    else
      match decode_access_token env st.2 with
      | none => none
      | some payload =>
        match payload.sub with
        | none => none
        | some username => get_user_by_username db username

/-- `main.signup`: reject a taken username with 400 before creating
anything; otherwise hash, create the user and issue a token.
`hashpw` and `mkToken` model `auth.get_password_hash` and
`auth.create_access_token` from the spec (salted one-way digest; signed
token whose `sub` is the username), as `auth.py` is not in the sources. -/
def signup (hashpw : String → String) (mkToken : String → String)
    (db : DB) (user : UserCreate) : DB × Except HTTPException Token :=
  match get_user_by_username db user.username with
  | some _ => (db, .error ⟨400, "Username already taken"⟩)
  | none =>
    let hashed := hashpw user.password
    let (db, u) := create_user db user.username hashed
    (db, .ok ⟨mkToken u.username, "bearer"⟩)

/-- `main.login`: a single generic 401 for both an unknown username and a
failed password check. `verifypw` models `auth.verify_password` from the
spec (true iff the plaintext matches the hash; never raises). -/
def login (verifypw : String → String → Bool) (mkToken : String → String)
    (db : DB) (user : UserCreate) : Except HTTPException Token :=
  match get_user_by_username db user.username with
  | none => .error ⟨401, "Invalid credentials"⟩
  | some u =>
    if !verifypw user.password u.hashed_password then
      .error ⟨401, "Invalid credentials"⟩
    else
      .ok ⟨mkToken u.username, "bearer"⟩

/-- The guard `if r.owner_id and (not current_user or r.owner_id !=
current_user.id)` of the update/delete handlers, with Python truthiness
on `owner_id` (both `None` and `0` are falsy). -/
def ownershipForbidden (owner_id : Option Nat) (current_user : Option User) : Bool :=
  match owner_id with
  | none => false
  | some oid =>
    if oid = 0 then false
    else
      match current_user with
      | none => true
      | some u => oid ≠ u.id

/-- `main.create_recipe_endpoint`: owner is the caller when
authenticated, else none. -/
def create_recipe_endpoint (db : DB) (recipe_in : RecipeCreate)
    (current_user : Option User) : DB × Recipe :=
  let owner_id := current_user.map (fun u => u.id)
  create_recipe db recipe_in.title recipe_in.description recipe_in.image_url
    recipe_in.ingredients owner_id

/-- `main.update_recipe` (the `PUT /recipes/{id}` handler): 404 when the
id is absent, 403 on the ownership guard, otherwise every field of the
parsed body — including its `ingredients` list — is passed to
`crud.update_recipe`. -/
def update_recipe_endpoint (db : DB) (recipe_id : Nat) (recipe_in : RecipeCreate)
    (current_user : Option User) : Except HTTPException (DB × Recipe) :=
  match get_recipe db recipe_id with
  | none => .error ⟨404, "Not found"⟩
  | some r =>
    if ownershipForbidden r.owner_id current_user then
      .error ⟨403, "Not allowed"⟩
    else
      .ok (update_recipe db r (some recipe_in.title) recipe_in.description
        recipe_in.image_url (some recipe_in.ingredients))

/-- `main.delete_recipe` (the `DELETE /recipes/{id}` handler). -/
def delete_recipe_endpoint (db : DB) (recipe_id : Nat)
    (current_user : Option User) : Except HTTPException DB :=
  match get_recipe db recipe_id with
  | none => .error ⟨404, "Not found"⟩
  | some r =>
    if ownershipForbidden r.owner_id current_user then
      .error ⟨403, "Not allowed"⟩
    else
      .ok (delete_recipe db r)

/-- The character-level comma split underlying `q.split(',')`. -/
def splitOnComma : List Char → List (List Char)
  | [] => [[]]
  | c :: cs =>
    if c = ',' then [] :: splitOnComma cs
    else
      match splitOnComma cs with
      | [] => [[c]]
      | p :: ps => (c :: p) :: ps

/-- Python's `q.split(',')`. -/
def splitCommaStr (s : String) : List String :=
  (splitOnComma s.data).map (fun cs => (⟨cs⟩ : String))

/-- `main.search` (the `GET /search` handler): split the query on commas,
drop blank segments, trim the rest, and delegate. -/
def search_endpoint (db : DB) (q : String) : List Recipe :=
  let names := ((splitCommaStr q).filter stripTruthy).map pyStrip
  search_recipes_by_ingredients db names

/-! ## Invariants and derived views -/

/-- The ingredient-table invariant the service maintains: every stored
name is a fixed point of the normalization (already trimmed and
lower-cased) and names are globally unique. -/
def IngredientsWF (db : DB) : Prop :=
  (∀ i ∈ db.ingredients, normalizeName i.name = i.name) ∧
  (db.ingredients.map (fun i => i.name)).Nodup

/-- The names of the ingredients a recipe is joined to (one per matching
`ingredients` row, as the EXISTS filters of the search query see them). -/
def joinedIngredientNames (db : DB) (r : Recipe) : List String :=
  (db.ingredients.filter (fun i => r.ingredientIds.contains i.id)).map
    (fun i => i.name)

/-! ## Concrete sample data (used by the witnesses) -/

/-- One ownerless recipe built through the API model. -/
def pizzaDB : DB :=
  (create_recipe DB.empty "Pizza" (some "cheesy") (some "pizza.jpg")
    ["Tomato", "Cheese"] none).1

/-- The recipe row of `pizzaDB`. -/
def pizzaRecipe : Recipe :=
  (create_recipe DB.empty "Pizza" (some "cheesy") (some "pizza.jpg")
    ["Tomato", "Cheese"] none).2

/-- Two users, `alice` (id 1) and `bob` (id 2). -/
def usersDB : DB := (create_user (create_user DB.empty "alice" "h1").1 "bob" "h2").1

/-- The user `alice` of `usersDB`. -/
def alice : User := (create_user DB.empty "alice" "h1").2

/-- The user `bob` of `usersDB`. -/
def bob : User := (create_user (create_user DB.empty "alice" "h1").1 "bob" "h2").2

/-- `usersDB` extended with a recipe owned by `alice`. -/
def ownedDB : DB := (create_recipe usersDB "Cake" none none ["flour"] (some 1)).1

/-- The owned recipe of `ownedDB`. -/
def cakeRecipe : Recipe := (create_recipe usersDB "Cake" none none ["flour"] (some 1)).2

/-- A token environment where the single string "tok1" is a valid token
whose subject is `alice`. -/
def sampleTokenEnv : TokenEnv := ⟨[("tok1", ⟨some "alice"⟩)]⟩

/-- A parsed update body with no ingredient change intended. -/
def sampleRC : RecipeCreate := ⟨"T2", none, none, []⟩

/-- The ingredient ids produced by resolving each name in order through
`create_or_get_ingredient` on an evolving database — "the Ingredients
resolved via create-or-get from the given names". -/
def resolvedIds (db : DB) : List String → List Nat
  | [] => []
  | n :: ns =>
    (create_or_get_ingredient db n).2.id ::
      resolvedIds (create_or_get_ingredient db n).1 ns

/-- Five recipes titled "Recipe 1" .. "Recipe 5", created in order. -/
def fiveDB : DB :=
  (create_recipe ((create_recipe ((create_recipe ((create_recipe ((create_recipe
    DB.empty "Recipe 1" none none [] none).1)
    "Recipe 2" none none [] none).1)
    "Recipe 3" none none [] none).1)
    "Recipe 4" none none [] none).1)
    "Recipe 5" none none [] none).1

/-! ## String-primitive lemmas -/

theorem toNat_ofNat_valid {n : Nat} (h : n.isValidChar) : (Char.ofNat n).toNat = n := by
  rw [Char.ofNat, dif_pos h]
  rfl

theorem char_eq_iff_toNat {c d : Char} : c = d ↔ c.toNat = d.toNat := by
  constructor
  · rintro rfl; rfl
  · intro h
    exact Char.eq_of_val_eq (UInt32.toNat.inj h)

theorem toNat_le_of_isSpaceChar {c : Char} (h : isSpaceChar c = true) :
    c.toNat ≤ 32 := by
  simp only [isSpaceChar, Bool.or_eq_true, decide_eq_true_eq] at h
  rcases h with ((((h | h) | h) | h) | h) | h <;> subst h <;> decide

theorem isSpaceChar_eq_false_of_toNat {c : Char}
    (h : 33 ≤ c.toNat) : isSpaceChar c = false := by
  cases hs : isSpaceChar c with
  | false => rfl
  | true => exact absurd (toNat_le_of_isSpaceChar hs) (by omega)

theorem toLower_eq_self_of_not {c : Char}
    (h : ¬(c.toNat ≥ 65 ∧ c.toNat ≤ 90)) : c.toLower = c := by
  show (if c.toNat ≥ 65 ∧ c.toNat ≤ 90 then Char.ofNat (c.toNat + 32) else c) = c
  rw [if_neg h]

theorem toLower_toNat_of_upper {c : Char} (h : c.toNat ≥ 65 ∧ c.toNat ≤ 90) :
    (c.toLower).toNat = c.toNat + 32 := by
  show (if c.toNat ≥ 65 ∧ c.toNat ≤ 90 then Char.ofNat (c.toNat + 32) else c).toNat =
    c.toNat + 32
  rw [if_pos h]
  exact toNat_ofNat_valid (Or.inl (by omega))

theorem isSpaceChar_toLower (c : Char) :
    isSpaceChar c.toLower = isSpaceChar c := by
  by_cases h : c.toNat ≥ 65 ∧ c.toNat ≤ 90
  · rw [isSpaceChar_eq_false_of_toNat (c := c.toLower) (by rw [toLower_toNat_of_upper h]; omega),
      isSpaceChar_eq_false_of_toNat (by omega)]
  · rw [toLower_eq_self_of_not h]

theorem toLower_idem (c : Char) : c.toLower.toLower = c.toLower := by
  by_cases h : c.toNat ≥ 65 ∧ c.toNat ≤ 90
  · have ht := toLower_toNat_of_upper h
    exact toLower_eq_self_of_not (by rw [ht]; omega)
  · simp [toLower_eq_self_of_not h]

theorem isSpaceChar_comp_toLower : (isSpaceChar ∘ Char.toLower) = isSpaceChar :=
  funext fun c => isSpaceChar_toLower c

theorem dropWhile_map_toLower (X : List Char) :
    List.dropWhile isSpaceChar (X.map Char.toLower) =
      (List.dropWhile isSpaceChar X).map Char.toLower := by
  rw [List.dropWhile_map, isSpaceChar_comp_toLower]

theorem rdropWhile_map_toLower (X : List Char) :
    List.rdropWhile isSpaceChar (X.map Char.toLower) =
      (List.rdropWhile isSpaceChar X).map Char.toLower := by
  unfold List.rdropWhile
  rw [← List.map_reverse, dropWhile_map_toLower, ← List.map_reverse]

theorem trimChars_map_toLower (cs : List Char) :
    trimChars (cs.map Char.toLower) = (trimChars cs).map Char.toLower := by
  unfold trimChars
  rw [dropWhile_map_toLower, rdropWhile_map_toLower]

theorem trimChars_prefixOf_dropWhile (cs : List Char) :
    trimChars cs <+: cs.dropWhile isSpaceChar :=
  List.rdropWhile_prefix isSpaceChar (cs.dropWhile isSpaceChar)

theorem trimChars_dropWhile_self (cs : List Char) :
    (trimChars cs).dropWhile isSpaceChar = trimChars cs := by
  rw [List.dropWhile_eq_self_iff]
  intro hl
  have hne : trimChars cs ≠ [] := List.ne_nil_of_length_pos hl
  have hAne : cs.dropWhile isSpaceChar ≠ [] := (trimChars_prefixOf_dropWhile cs).ne_nil hne
  have hget : (trimChars cs).get ⟨0, hl⟩ = (trimChars cs).head hne := by
    rw [List.head_eq_getElem]
    rfl
  rw [hget, (trimChars_prefixOf_dropWhile cs).head hne]
  simp [List.head_dropWhile_not isSpaceChar cs hAne]

theorem trimChars_idem (cs : List Char) : trimChars (trimChars cs) = trimChars cs := by
  conv_lhs => rw [trimChars, trimChars_dropWhile_self]
  rw [trimChars, List.rdropWhile_idempotent]

theorem normalizeName_idem (s : String) :
    normalizeName (normalizeName s) = normalizeName s := by
  show pyLower (pyStrip (pyLower (pyStrip s))) = pyLower (pyStrip s)
  unfold pyLower pyStrip
  simp only [trimChars_map_toLower, trimChars_idem, List.map_map]
  congr 1
  exact List.map_congr_left fun c _ => by
    simp only [Function.comp_apply, toLower_idem]

/-! ## Deduplication lemmas -/

theorem mem_dedupFirstAux {x : Nat} (l : List Nat) :
    ∀ seen, x ∈ dedupFirstAux seen l ↔ x ∈ l ∧ x ∉ seen := by
  induction l with
  | nil => intro seen; simp [dedupFirstAux]
  | cons a l ih =>
    intro seen
    simp only [dedupFirstAux]
    by_cases ha : a ∈ seen
    · rw [if_pos ha, ih seen]
      by_cases hxa : x = a
      · subst hxa; simp [ha]
      · simp [hxa]
    · rw [if_neg ha]
      by_cases hxa : x = a
      · subst hxa; simp [ha]
      · simp [hxa, List.mem_cons, ih (a :: seen)]

theorem dedupFirstAux_nodup (l : List Nat) :
    ∀ seen, (dedupFirstAux seen l).Nodup := by
  induction l with
  | nil => intro seen; simp [dedupFirstAux]
  | cons a l ih =>
    intro seen
    simp only [dedupFirstAux]
    by_cases ha : a ∈ seen
    · rw [if_pos ha]; exact ih seen
    · rw [if_neg ha]
      refine List.nodup_cons.mpr ⟨fun hmem => ?_, ih (a :: seen)⟩
      exact ((mem_dedupFirstAux l (a :: seen)).mp hmem).2 (List.mem_cons_self a seen)

theorem dedupFirst_nodup (l : List Nat) : (dedupFirst l).Nodup :=
  dedupFirstAux_nodup l []

theorem mem_dedupFirst {x : Nat} {l : List Nat} : x ∈ dedupFirst l ↔ x ∈ l := by
  rw [dedupFirst, mem_dedupFirstAux]
  simp

/-! ## `create_or_get_ingredient` lemmas -/

theorem create_or_get_ingredient_name (db : DB) (n : String) :
    ((create_or_get_ingredient db n).2).name = normalizeName n := by
  simp only [create_or_get_ingredient]
  cases hf : db.ingredients.find? (fun i => i.name = normalizeName n) with
  | none => simp
  | some i =>
    simp only []
    have hp := List.find?_some hf
    exact of_decide_eq_true hp

theorem create_or_get_ingredient_users (db : DB) (n : String) :
    (create_or_get_ingredient db n).1.users = db.users := by
  simp only [create_or_get_ingredient]
  cases hf : db.ingredients.find? (fun i => i.name = normalizeName n) <;> simp

theorem create_or_get_ingredient_recipes (db : DB) (n : String) :
    (create_or_get_ingredient db n).1.recipes = db.recipes := by
  simp only [create_or_get_ingredient]
  cases hf : db.ingredients.find? (fun i => i.name = normalizeName n) <;> simp

theorem create_or_get_ingredient_mono (db : DB) (n : String) :
    ∃ tail, (create_or_get_ingredient db n).1.ingredients = db.ingredients ++ tail := by
  simp only [create_or_get_ingredient]
  cases hf : db.ingredients.find? (fun i => i.name = normalizeName n) with
  | none => exact ⟨_, rfl⟩
  | some i => exact ⟨[], by simp⟩

theorem create_or_get_ingredient_find (db : DB) (n : String) :
    (create_or_get_ingredient db n).1.ingredients.find?
      (fun i => i.name = normalizeName n) = some (create_or_get_ingredient db n).2 := by
  simp only [create_or_get_ingredient]
  cases hf : db.ingredients.find? (fun i => i.name = normalizeName n) with
  | some i => simpa using hf
  | none =>
    simp only [List.find?_append, hf, Option.none_or]
    simp

/-- Two successive create-or-get calls with names normalizing equal: the
second call finds the first call's row and changes nothing. -/
theorem create_or_get_ingredient_stable (db : DB) (n1 n2 : String)
    (hn : normalizeName n1 = normalizeName n2) :
    create_or_get_ingredient (create_or_get_ingredient db n1).1 n2 =
      ((create_or_get_ingredient db n1).1, (create_or_get_ingredient db n1).2) := by
  have hfind := create_or_get_ingredient_find db n1
  rw [hn] at hfind
  generalize hp : create_or_get_ingredient db n1 = p at *
  simp only [create_or_get_ingredient, hfind]

theorem create_or_get_ingredient_wf (db : DB) (n : String) (hwf : IngredientsWF db) :
    IngredientsWF (create_or_get_ingredient db n).1 := by
  simp only [IngredientsWF, create_or_get_ingredient] at *
  cases hf : db.ingredients.find? (fun i => i.name = normalizeName n) with
  | some i => simpa using hwf
  | none =>
    simp only []
    constructor
    · intro i hi
      rcases List.mem_append.mp hi with hi | hi
      · exact hwf.1 i hi
      · rcases List.mem_singleton.mp hi with rfl
        exact normalizeName_idem n
    · rw [List.map_append]
      refine List.Nodup.append hwf.2 (List.nodup_singleton _) ?_
      intro a ha hb
      rcases List.mem_map.mp ha with ⟨i, hi, rfl⟩
      rcases List.mem_singleton.mp hb with heq
      have := List.find?_eq_none.mp hf i hi
      exact this (decide_eq_true heq)

/-! ## Fold-loop and commit lemmas -/

theorem foldl_resolveAndAppend_fields (names : List String) (st : DB × Recipe) :
    (names.foldl resolveAndAppend st).2.id = st.2.id ∧
    (names.foldl resolveAndAppend st).2.title = st.2.title ∧
    (names.foldl resolveAndAppend st).2.description = st.2.description ∧
    (names.foldl resolveAndAppend st).2.image_url = st.2.image_url ∧
    (names.foldl resolveAndAppend st).2.owner_id = st.2.owner_id := by
  induction names generalizing st with
  | nil => exact ⟨rfl, rfl, rfl, rfl, rfl⟩
  | cons n ns ih =>
    simpa only [List.foldl_cons] using ih (resolveAndAppend st n)

theorem foldl_resolveAndAppend_db (names : List String) (st : DB × Recipe) :
    (names.foldl resolveAndAppend st).1.users = st.1.users ∧
    (names.foldl resolveAndAppend st).1.recipes = st.1.recipes := by
  induction names generalizing st with
  | nil => exact ⟨rfl, rfl⟩
  | cons n ns ih =>
    simp only [List.foldl_cons]
    rcases ih (resolveAndAppend st n) with ⟨h1, h2⟩
    exact ⟨h1.trans (create_or_get_ingredient_users st.1 n),
      h2.trans (create_or_get_ingredient_recipes st.1 n)⟩

theorem foldl_resolveAndAppend_wf (names : List String) (st : DB × Recipe)
    (hwf : IngredientsWF st.1) :
    IngredientsWF (names.foldl resolveAndAppend st).1 := by
  induction names generalizing st with
  | nil => exact hwf
  | cons n ns ih =>
    simp only [List.foldl_cons]
    exact ih (resolveAndAppend st n) (create_or_get_ingredient_wf st.1 n hwf)

theorem commitRecipe_users (db : DB) (r : Recipe) :
    (commitRecipe db r).users = db.users := rfl

theorem commitRecipe_ingredients (db : DB) (r : Recipe) :
    (commitRecipe db r).ingredients = db.ingredients := rfl

/-! ## Claim C7 -/

/-- C7: for ingredient names whose trimmed, lower-cased forms are equal,
`create_or_get_ingredient n1` followed by `create_or_get_ingredient n2`
returns the very same Ingredient row, and the ingredient-table invariant
(every stored name in normalized form, globally unique) is preserved
through both calls. -/
theorem claim_C7_create_or_get_same_identity (db : DB) (n1 n2 : String)
    (hn : normalizeName n1 = normalizeName n2) (hwf : IngredientsWF db) :
    (create_or_get_ingredient (create_or_get_ingredient db n1).1 n2).2 =
      (create_or_get_ingredient db n1).2 ∧
    IngredientsWF (create_or_get_ingredient (create_or_get_ingredient db n1).1 n2).1 := by
  rw [create_or_get_ingredient_stable db n1 n2 hn]
  exact ⟨rfl, create_or_get_ingredient_wf db n1 hwf⟩

/-- Witness for C7 at `n1 = " Tomato "`, `n2 = "TOMATO"` on the empty
database. -/
theorem claim_C7_witness :
    (create_or_get_ingredient (create_or_get_ingredient DB.empty " Tomato ").1 "TOMATO").2 =
      (create_or_get_ingredient DB.empty " Tomato ").2 ∧
    IngredientsWF
      (create_or_get_ingredient (create_or_get_ingredient DB.empty " Tomato ").1 "TOMATO").1 :=
  claim_C7_create_or_get_same_identity DB.empty " Tomato " "TOMATO" (by decide)
    ⟨by decide, by decide⟩

/-! ## Claim C2 -/

/-- C2: duplicate names in `create_recipe`'s input collapse to a single
association — the created recipe's loaded ingredient collection is free of
duplicate references for every input, and creating with
`["A", "A", "B"]` yields exactly the 2 distinct ingredients "a", "b". -/
theorem claim_C2_duplicate_names_collapse :
    (∀ (db : DB) (t : String) (d iu : Option String) (ns : List String) (o : Option Nat),
      (loadedIngredientIds (create_recipe db t d iu ns o).2).Nodup) ∧
    loadedIngredientIds (create_recipe DB.empty "T" none none ["A", "A", "B"] none).2 =
      [1, 2] ∧
    loadedIngredientNames (create_recipe DB.empty "T" none none ["A", "A", "B"] none).1
      (create_recipe DB.empty "T" none none ["A", "A", "B"] none).2 = ["a", "b"] := by
  refine ⟨fun db t d iu ns o => dedupFirst_nodup _, by decide, by decide⟩

/-! ## Claim C6 -/

/-- C6: updating with title, description, image_url and ingredient_names
all `None` returns the recipe unchanged in every field, and (when the
given recipe is the table's row of its id) leaves the database unchanged
as well. -/
theorem claim_C6_update_all_none_identity (db : DB) (r : Recipe)
    (h : ∀ x ∈ db.recipes, x.id = r.id → x = r) :
    (update_recipe db r none none none none).2 = r ∧
    (update_recipe db r none none none none).1 = db := by
  refine ⟨rfl, ?_⟩
  show commitRecipe db r = db
  unfold commitRecipe
  have hmap : db.recipes.map (fun x => if x.id = r.id then r else x) = db.recipes := by
    conv_rhs => rw [← List.map_id db.recipes]
    refine List.map_congr_left fun x hx => ?_
    by_cases hid : x.id = r.id
    · rw [if_pos hid]
      exact (h x hx hid).symm
    · rw [if_neg hid]
      rfl
  rw [hmap]

/-- Witness for C6 on the concrete pizza database. -/
theorem claim_C6_witness :
    (update_recipe pizzaDB pizzaRecipe none none none none).2 = pizzaRecipe ∧
    (update_recipe pizzaDB pizzaRecipe none none none none).1 = pizzaDB :=
  claim_C6_update_all_none_identity pizzaDB pizzaRecipe (by decide)

/-! ## Claim C10 -/

/-- C10: `update_recipe` can never clear a non-null description or
image_url back to null — `None` for either parameter leaves the field
unchanged and any provided value is non-null. -/
theorem claim_C10_update_preserves_presence (db : DB) (r : Recipe)
    (t d iu : Option String) (ns : Option (List String)) :
    (r.description.isSome → ((update_recipe db r t d iu ns).2).description.isSome) ∧
    (r.image_url.isSome → ((update_recipe db r t d iu ns).2).image_url.isSome) := by
  have key : ((update_recipe db r t d iu ns).2).description =
      (match d with | some v => some v | none => r.description) ∧
      ((update_recipe db r t d iu ns).2).image_url =
      (match iu with | some v => some v | none => r.image_url) := by
    unfold update_recipe
    cases ns with
    | none => cases t <;> cases d <;> cases iu <;> exact ⟨rfl, rfl⟩
    | some names =>
      constructor
      · rw [(foldl_resolveAndAppend_fields names _).2.2.1]
        cases t <;> cases d <;> cases iu <;> rfl
      · rw [(foldl_resolveAndAppend_fields names _).2.2.2.1]
        cases t <;> cases d <;> cases iu <;> rfl
  rcases key with ⟨k1, k2⟩
  constructor
  · intro hd
    rw [k1]
    cases d
    · exact hd
    · simp
  · intro hi
    rw [k2]
    cases iu
    · exact hi
    · simp

/-- Witness for C10 on the concrete pizza recipe (which has both a
description and an image_url). -/
theorem claim_C10_witness :
    ((update_recipe pizzaDB pizzaRecipe (some "New") none none
        (some ["basil"])).2).description.isSome ∧
    ((update_recipe pizzaDB pizzaRecipe (some "New") none none
        (some ["basil"])).2).image_url.isSome :=
  have h := claim_C10_update_preserves_presence pizzaDB pizzaRecipe
    (some "New") none none (some ["basil"])
  ⟨h.1 (by decide), h.2 (by decide)⟩

/-! ## Claim C5 -/

/-- C5: `list_recipes` is exactly the skip/limit window of the recipe
table; on a table in primary-key ascending order the page stays in
primary-key ascending order, and in the five-recipe scenario
`skip = 1, limit = 2` returns "Recipe 2" then "Recipe 3". -/
theorem claim_C5_list_recipes_window (db : DB) (skip limit : Nat)
    (hs : db.recipes.Pairwise (fun a b => a.id < b.id)) :
    list_recipes db skip limit = (db.recipes.drop skip).take limit ∧
    (list_recipes db skip limit).Pairwise (fun a b => a.id < b.id) ∧
    (list_recipes fiveDB 1 2).map (fun r => r.title) = ["Recipe 2", "Recipe 3"] := by
  refine ⟨rfl, ?_, by decide⟩
  unfold list_recipes
  exact hs.sublist
    (((db.recipes.drop skip).take_sublist limit).trans (db.recipes.drop_sublist skip))

/-- Witness for C5 at the five-recipe database with skip 1, limit 2. -/
theorem claim_C5_witness :
    list_recipes fiveDB 1 2 = (fiveDB.recipes.drop 1).take 2 ∧
    (list_recipes fiveDB 1 2).Pairwise (fun a b => a.id < b.id) ∧
    (list_recipes fiveDB 1 2).map (fun r => r.title) = ["Recipe 2", "Recipe 3"] :=
  claim_C5_list_recipes_window fiveDB 1 2 (by decide)

/-! ## Claim C1 -/

theorem recipeHasIngredientNamed_iff (db : DB) (r : Recipe) (name : String) :
    recipeHasIngredientNamed db r name = true ↔ name ∈ joinedIngredientNames db r := by
  simp only [recipeHasIngredientNamed, joinedIngredientNames, List.any_eq_true,
    Bool.and_eq_true, decide_eq_true_eq, List.mem_map, List.mem_filter,
    List.contains_iff_exists_mem_beq, beq_iff_eq]
  constructor
  · rintro ⟨iid, hiid, i, hi, hid, hname⟩
    exact ⟨i, ⟨hi, iid, hiid, hid⟩, hname⟩
  · rintro ⟨i, ⟨hi, iid, hiid, hid⟩, hname⟩
    exact ⟨iid, hiid, i, hi, hid, hname⟩

theorem mem_joined_names {db : DB} {r : Recipe} {s : String}
    (h : s ∈ joinedIngredientNames db r) : ∃ i ∈ db.ingredients, i.name = s := by
  unfold joinedIngredientNames at h
  rcases List.mem_map.mp h with ⟨i, hi, rfl⟩
  exact ⟨i, (List.mem_filter.mp hi).1, rfl⟩

theorem mem_map_normalize_joined {db : DB} {r : Recipe}
    (hwf : ∀ i ∈ db.ingredients, normalizeName i.name = i.name) (n : String) :
    n ∈ (joinedIngredientNames db r).map normalizeName ↔
      n ∈ joinedIngredientNames db r := by
  constructor
  · intro h
    rcases List.mem_map.mp h with ⟨m, hm, rfl⟩
    rcases mem_joined_names hm with ⟨i, hi, rfl⟩
    rwa [hwf i hi]
  · intro h
    rcases mem_joined_names h with ⟨i, hi, heq⟩
    subst heq
    exact List.mem_map.mpr ⟨i.name, h, hwf i hi⟩

/-- C1: on a database whose stored ingredient names are normalized (as
every name written by the service is), the search returns exactly the
recipes whose normalized ingredient-name set contains every normalized
non-blank input name, and an input with no non-blank names — in
particular the empty list — returns the empty list. -/
theorem claim_C1_search_superset_semantics (db : DB)
    (hwf : ∀ i ∈ db.ingredients, normalizeName i.name = i.name)
    (qs : List String) :
    (normalizedQuery qs = [] → search_recipes_by_ingredients db qs = []) ∧
    (∀ r, r ∈ search_recipes_by_ingredients db qs ↔
      r ∈ db.recipes ∧ normalizedQuery qs ≠ [] ∧
      ∀ n ∈ normalizedQuery qs,
        n ∈ (joinedIngredientNames db r).map normalizeName) := by
  constructor
  · intro h
    simp [search_recipes_by_ingredients, h]
  · intro r
    by_cases hq : normalizedQuery qs = []
    · simp [search_recipes_by_ingredients, hq]
    · have hne : (normalizedQuery qs).isEmpty = false := by
        cases hqq : normalizedQuery qs with
        | nil => exact absurd hqq hq
        | cons a l => rfl
      simp only [search_recipes_by_ingredients, hne, Bool.false_eq_true, if_false,
        List.mem_filter, List.all_eq_true]
      constructor
      · rintro ⟨hr, hall⟩
        refine ⟨hr, hq, fun n hn => ?_⟩
        rw [mem_map_normalize_joined hwf]
        exact (recipeHasIngredientNamed_iff db r n).mp (hall n hn)
      · rintro ⟨hr, _, hall⟩
        refine ⟨hr, fun n hn => ?_⟩
        exact (recipeHasIngredientNamed_iff db r n).mpr
          ((mem_map_normalize_joined hwf n).mp (hall n hn))

/-- Witness for C1: on the pizza database, searching for `"Tomato "`
finds the pizza recipe. -/
theorem claim_C1_witness :
    pizzaRecipe ∈ search_recipes_by_ingredients pizzaDB ["Tomato "] :=
  ((claim_C1_search_superset_semantics pizzaDB (by decide) ["Tomato "]).2
    pizzaRecipe).mpr ⟨by decide, by decide, by decide⟩

/-! ## Claim C3 -/

theorem ownershipForbidden_iff (r : Recipe) (cu : Option User)
    (hpos : ∀ oid, r.owner_id = some oid → 0 < oid) :
    ownershipForbidden r.owner_id cu = true ↔
      ∃ oid, r.owner_id = some oid ∧
        (cu = none ∨ ∃ u, cu = some u ∧ oid ≠ u.id) := by
  unfold ownershipForbidden
  cases ho : r.owner_id with
  | none => simp
  | some oid =>
    have h0 : ¬oid = 0 := Nat.pos_iff_ne_zero.mp (hpos oid ho)
    cases cu with
    | none => simp [h0]
    | some u => simp [h0]

/-- C3: on a database whose owner ids are real (positive) user ids, the
update and delete handlers return 403 "Not allowed" exactly when the
recipe has an owner and the caller is absent or a different user; when the
recipe is ownerless both handlers pass the ownership check and succeed for
every caller, including the unauthenticated one. -/
theorem claim_C3_ownership_rule (db : DB) (recipe_id : Nat) (rc : RecipeCreate)
    (cu : Option User) (r : Recipe)
    (hr : get_recipe db recipe_id = some r)
    (hpos : ∀ oid, r.owner_id = some oid → 0 < oid) :
    (update_recipe_endpoint db recipe_id rc cu = .error ⟨403, "Not allowed"⟩ ↔
      ∃ oid, r.owner_id = some oid ∧
        (cu = none ∨ ∃ u, cu = some u ∧ oid ≠ u.id)) ∧
    (delete_recipe_endpoint db recipe_id cu = .error ⟨403, "Not allowed"⟩ ↔
      ∃ oid, r.owner_id = some oid ∧
        (cu = none ∨ ∃ u, cu = some u ∧ oid ≠ u.id)) ∧
    (r.owner_id = none →
      (∃ res, update_recipe_endpoint db recipe_id rc cu = .ok res) ∧
      (∃ db2, delete_recipe_endpoint db recipe_id cu = .ok db2)) := by
  have hiff := ownershipForbidden_iff r cu hpos
  have hupd : update_recipe_endpoint db recipe_id rc cu =
      if ownershipForbidden r.owner_id cu then .error ⟨403, "Not allowed"⟩
      else .ok (update_recipe db r (some rc.title) rc.description rc.image_url
        (some rc.ingredients)) := by
    unfold update_recipe_endpoint
    rw [hr]
  have hdel : delete_recipe_endpoint db recipe_id cu =
      if ownershipForbidden r.owner_id cu then .error ⟨403, "Not allowed"⟩
      else .ok (delete_recipe db r) := by
    unfold delete_recipe_endpoint
    rw [hr]
  rw [hupd, hdel]
  by_cases hf : ownershipForbidden r.owner_id cu = true
  · rw [if_pos hf, if_pos hf]
    refine ⟨iff_of_true rfl (hiff.mp hf), iff_of_true rfl (hiff.mp hf), ?_⟩
    intro hnone
    rcases hiff.mp hf with ⟨oid, hsome, _⟩
    rw [hnone] at hsome
    cases hsome
  · have hnf : ¬(∃ oid, r.owner_id = some oid ∧
        (cu = none ∨ ∃ u, cu = some u ∧ oid ≠ u.id)) :=
      fun hR => hf (hiff.mpr hR)
    rw [if_neg hf, if_neg hf]
    exact ⟨iff_of_false (by simp) hnf, iff_of_false (by simp) hnf,
      fun _ => ⟨⟨_, rfl⟩, ⟨_, rfl⟩⟩⟩

/-- Witness for C3: on the owned cake recipe (owner alice), caller bob is
rejected with 403 on update and delete. -/
theorem claim_C3_witness :
    (update_recipe_endpoint ownedDB 1 sampleRC (some bob) =
        .error ⟨403, "Not allowed"⟩ ↔
      ∃ oid, cakeRecipe.owner_id = some oid ∧
        ((some bob : Option User) = none ∨
          ∃ u, (some bob : Option User) = some u ∧ oid ≠ u.id)) ∧
    (delete_recipe_endpoint ownedDB 1 (some bob) = .error ⟨403, "Not allowed"⟩ ↔
      ∃ oid, cakeRecipe.owner_id = some oid ∧
        ((some bob : Option User) = none ∨
          ∃ u, (some bob : Option User) = some u ∧ oid ≠ u.id)) ∧
    (cakeRecipe.owner_id = none →
      (∃ res, update_recipe_endpoint ownedDB 1 sampleRC (some bob) = .ok res) ∧
      (∃ db2, delete_recipe_endpoint ownedDB 1 (some bob) = .ok db2)) :=
  claim_C3_ownership_rule ownedDB 1 sampleRC (some bob) cakeRecipe (by decide)
    (fun oid h => by
      rw [show cakeRecipe.owner_id = some 1 from rfl] at h
      cases h
      decide)

/-! ## Claim C8 -/

/-- C8: caller resolution is total (it returns an `Option`, never an
error) and soft-fails — a caller is produced only through the full success
chain (header present, bearer scheme, decodable token, sub claim present,
user exists); every failure along that chain yields no caller. -/
theorem claim_C8_soft_caller_resolution (env : TokenEnv) (db : DB)
    (authorization : Option String) (u : User)
    (h : get_current_user env db authorization = some u) :
    ∃ a, authorization = some a ∧
      pyLower (partitionSpace a).1 = "bearer" ∧
      ∃ p, decode_access_token env (partitionSpace a).2 = some p ∧
      ∃ s, p.sub = some s ∧ get_user_by_username db s = some u := by
  cases authorization with
  | none => cases h
  | some a =>
    refine ⟨a, rfl, ?_⟩
    simp only [get_current_user] at h
    by_cases hs : pyLower (partitionSpace a).1 ≠ "bearer"
    · rw [if_pos hs] at h
      cases h
    · rw [if_neg hs] at h
      refine ⟨not_not.mp hs, ?_⟩
      cases hd : decode_access_token env (partitionSpace a).2 with
      | none => rw [hd] at h; cases h
      | some p =>
        rw [hd] at h
        simp only [] at h
        refine ⟨p, rfl, ?_⟩
        cases hsub : p.sub with
        | none =>
          rw [hsub] at h
          cases h
        | some s =>
          rw [hsub] at h
          exact ⟨s, rfl, h⟩

/-- Witness for C8: with the sample token environment, the header
"Bearer tok1" resolves to alice through the success chain. -/
theorem claim_C8_witness :
    ∃ a, (some "Bearer tok1" : Option String) = some a ∧
      pyLower (partitionSpace a).1 = "bearer" ∧
      ∃ p, decode_access_token sampleTokenEnv (partitionSpace a).2 = some p ∧
      ∃ s, p.sub = some s ∧ get_user_by_username usersDB s = some alice :=
  claim_C8_soft_caller_resolution sampleTokenEnv usersDB (some "Bearer tok1")
    alice (by decide)

/-! ## Claim C9 -/

/-- C9: signup on a taken username returns 400 "Username already taken"
and leaves the database unchanged (no user row created); login returns the
single generic 401 "Invalid credentials" both when the username is unknown
and when the username exists but the password check fails — the two
failure responses are identical. -/
theorem claim_C9_signup_login_errors
    (hashpw mkToken : String → String) (verifypw : String → String → Bool)
    (db : DB) (uc : UserCreate) :
    (∀ u0, get_user_by_username db uc.username = some u0 →
      signup hashpw mkToken db uc =
        (db, .error ⟨400, "Username already taken"⟩)) ∧
    (get_user_by_username db uc.username = none →
      login verifypw mkToken db uc = .error ⟨401, "Invalid credentials"⟩) ∧
    (∀ u0, get_user_by_username db uc.username = some u0 →
      verifypw uc.password u0.hashed_password = false →
      login verifypw mkToken db uc = .error ⟨401, "Invalid credentials"⟩) := by
  refine ⟨?_, ?_, ?_⟩
  · intro u0 h
    unfold signup
    rw [h]
  · intro h
    unfold login
    rw [h]
  · intro u0 h hv
    unfold login
    rw [h]
    simp only []
    rw [hv]
    rfl

/-- Witness for C9: in the two-user database, re-signing up "alice"
yields the 400 conflict without a new row, and the 401 for an unknown
username "carol" equals the 401 for "alice" with a failing password
check. -/
theorem claim_C9_witness :
    signup (fun p => p) (fun s => s) usersDB ⟨"alice", "pw"⟩ =
      (usersDB, .error ⟨400, "Username already taken"⟩) ∧
    login (fun _ _ => false) (fun s => s) usersDB ⟨"carol", "pw"⟩ =
      .error ⟨401, "Invalid credentials"⟩ ∧
    login (fun _ _ => false) (fun s => s) usersDB ⟨"alice", "pw"⟩ =
      .error ⟨401, "Invalid credentials"⟩ :=
  have h := claim_C9_signup_login_errors (fun p => p) (fun s => s)
    (fun _ _ => false) usersDB ⟨"alice", "pw"⟩
  have h2 := claim_C9_signup_login_errors (fun p => p) (fun s => s)
    (fun _ _ => false) usersDB ⟨"carol", "pw"⟩
  ⟨h.1 alice (by decide), h2.2.1 (by decide), h.2.2 alice (by decide) rfl⟩

/-! ## Claim C4 -/

theorem foldl_resolveAndAppend_ids (names : List String) (st : DB × Recipe) :
    (names.foldl resolveAndAppend st).2.ingredientIds =
      st.2.ingredientIds ++ resolvedIds st.1 names := by
  induction names generalizing st with
  | nil => simp [resolvedIds]
  | cons n ns ih =>
    simp only [List.foldl_cons, resolvedIds]
    rw [ih (resolveAndAppend st n)]
    simp [resolveAndAppend, List.append_assoc]

theorem update_some_ids (db : DB) (r : Recipe) (t d iu : Option String)
    (names : List String) :
    ((update_recipe db r t d iu (some names)).2).ingredientIds =
      resolvedIds db names := by
  unfold update_recipe
  cases t <;> cases d <;> cases iu <;>
    simp [foldl_resolveAndAppend_ids]

/-- C4 counterexample: "omitting the ingredients field from the HTTP PUT
body leaves the association set unchanged" is false — on the pizza
database, a body without the ingredients field parses to the schema
default `[]`, and the update endpoint then clears the recipe's
associations (from `[1, 2]` to `[]`). -/
theorem claim_C4_counterexample :
    parseRecipeCreate ⟨some "Pizza2", none, none, none⟩ =
      some ⟨"Pizza2", none, none, []⟩ ∧
    get_recipe pizzaDB 1 = some pizzaRecipe ∧
    pizzaRecipe.ingredientIds = [1, 2] ∧
    (update_recipe_endpoint pizzaDB 1 ⟨"Pizza2", none, none, []⟩ none).toOption.map
      (fun p : DB × Recipe => p.2.ingredientIds) = some [] := by
  refine ⟨by decide, by decide, by decide, by decide⟩

/-- C4 (amended): at the crud layer ingredient_names is independently
optional — `None` leaves the association set untouched, and a provided
list (the empty list included) replaces the entire set with exactly the
ingredients resolved via create-or-get from the given names, independent
of the old associations (dropped, not merged). At the HTTP layer,
however, an omitted ingredients field parses to the schema default `[]`,
never to `None`, so a PUT body without the field clears the association
set instead of leaving it unchanged. -/
theorem claim_C4_amended :
    (∀ (db : DB) (r : Recipe) (t d iu : Option String),
      ((update_recipe db r t d iu none).2).ingredientIds = r.ingredientIds) ∧
    (∀ (db : DB) (r : Recipe) (t d iu : Option String) (names : List String),
      ((update_recipe db r t d iu (some names)).2).ingredientIds =
        resolvedIds db names) ∧
    (∀ (b : RecipeBody) (rc : RecipeCreate), b.ingredients = none →
      parseRecipeCreate b = some rc → rc.ingredients = []) ∧
    (∀ (db : DB) (recipe_id : Nat) (rc : RecipeCreate) (cu : Option User)
        (db2 : DB) (r2 : Recipe), rc.ingredients = [] →
      update_recipe_endpoint db recipe_id rc cu = .ok (db2, r2) →
      r2.ingredientIds = []) := by
  refine ⟨?_, ?_, ?_, ?_⟩
  · intro db r t d iu
    unfold update_recipe
    cases t <;> cases d <;> cases iu <;> rfl
  · intro db r t d iu names
    exact update_some_ids db r t d iu names
  · intro b rc hb hp
    unfold parseRecipeCreate at hp
    cases hbt : b.title with
    | none => rw [hbt] at hp; cases hp
    | some t =>
      rw [hbt] at hp
      simp only [] at hp
      by_cases hst : (!stripTruthy t) = true
      · rw [if_pos hst] at hp; cases hp
      · rw [if_neg hst] at hp
        cases hp
        simp [hb]
  · intro db recipe_id rc cu db2 r2 hrc hp
    unfold update_recipe_endpoint at hp
    cases hg : get_recipe db recipe_id with
    | none => rw [hg] at hp; cases hp
    | some r =>
      rw [hg] at hp
      simp only [] at hp
      by_cases hf : ownershipForbidden r.owner_id cu = true
      · rw [if_pos hf] at hp; cases hp
      · rw [if_neg hf] at hp
        injection hp with hinj
        have h2 : r2 = (update_recipe db r (some rc.title) rc.description
            rc.image_url (some rc.ingredients)).2 := by
          rw [hinj]
        rw [h2, update_some_ids, hrc]
        rfl

/-- Witness for the amended C4 on the pizza database: None leaves the
associations, a provided list replaces them with the create-or-get
resolution, a body without an ingredients field parses to `[]`, and the
endpoint then clears the association set. -/
theorem claim_C4_witness :
    ((update_recipe pizzaDB pizzaRecipe (some "t") none none none).2).ingredientIds =
      pizzaRecipe.ingredientIds ∧
    ((update_recipe pizzaDB pizzaRecipe none none none
        (some ["basil"])).2).ingredientIds = resolvedIds pizzaDB ["basil"] ∧
    (⟨"Pizza2", none, none, ([] : List String)⟩ : RecipeCreate).ingredients = [] ∧
    ((update_recipe pizzaDB pizzaRecipe (some "Pizza2") none none
        (some ([] : List String))).2).ingredientIds = [] :=
  ⟨claim_C4_amended.1 pizzaDB pizzaRecipe (some "t") none none,
   claim_C4_amended.2.1 pizzaDB pizzaRecipe none none none ["basil"],
   claim_C4_amended.2.2.1 ⟨some "Pizza2", none, none, none⟩ _ rfl (by decide),
   claim_C4_amended.2.2.2 pizzaDB 1 ⟨"Pizza2", none, none, []⟩ none _ _ rfl rfl⟩

end RecipeFinder
